import Mathlib

/- Shallow embedding of the StreamStock event-processing core: the
   in-memory stores (stores/InMemoryStore.ts), the recommendation engine
   (services/AIRecommendations.ts), the event handler
   (services/EventHandler.ts), the forecaster (services/Forecasting.ts)
   and the manual alert-resolution route (api/routes.ts).

   Modelling conventions:
   - JS numbers are modelled as exact rationals (`Rat`); timestamps as
     integer milliseconds (`Int`).
   - A JS `Map` keyed by `id` is modelled as an insertion-ordered list of
     records; `Map.set` replaces an entry in place when the key is
     present, otherwise appends (`mapSet`), and `Map.get` finds the entry
     (`mapGet`).
   - `Math.round x` is `Int.floor (x + 1/2)`, `Math.ceil` is `Int.ceil`.
   - JS string interpolation of a number is abstracted as the exact
     rendering `fmtQ`; the proved claims never depend on the rendering.
   - Division by zero producing `Infinity` (days-until-stockout with zero
     velocity, depletion ratio with zero base stock) is modelled
     explicitly with `Option` / a case split rather than with `q / 0`. -/

inductive EventType where
  | SALE
  | RESTOCK
  | RETURN
  | ALERT
  deriving DecidableEq

inductive AlertSeverity where
  | critical
  | warning
  | info
  deriving DecidableEq

inductive AlertType where
  | LOW_STOCK
  | CRITICAL_LOW_STOCK
  | OVERSTOCK
  | RAPID_DEPLETION
  | AI_RECOMMENDATION
  | REORDER_NEEDED
  deriving DecidableEq

/-- Product entity (models/types.ts). -/
structure Product where
  id : String
  sku : String
  name : String
  category : String
  warehouse : String
  currentStock : ℚ
  reorderPoint : ℚ
  maxCapacity : ℚ
  unitPrice : ℚ
  predictedStock7d : ℚ
  lastUpdated : ℤ
  deriving DecidableEq

/-- Stock event entity (models/types.ts); `metadata` is an opaque
    provenance payload. -/
structure Event where
  id : String
  type : EventType
  productId : String
  quantity : ℚ
  warehouse : String
  timestamp : ℤ
  metadata : Option String
  deriving DecidableEq

/-- Alert entity (models/types.ts). -/
structure Alert where
  id : String
  productId : String
  severity : AlertSeverity
  type : AlertType
  message : String
  aiRecommendation : Option String
  resolved : Bool
  timestamp : ℤ
  resolvedAt : Option ℤ
  deriving DecidableEq

/-- JS `Map.prototype.set` on an insertion-ordered association list
    (`InMemoryStore.create`): replace in place when the key is present,
    append otherwise. -/
def mapSet (getId : α → String) (s : List α) (item : α) : List α :=
  if s.any (fun x => getId x == getId item) then
    s.map (fun x => if getId x == getId item then item else x)
  else s ++ [item]

/-- JS `Map.prototype.get` (`InMemoryStore.get`). -/
def mapGet (getId : α → String) (s : List α) (k : String) : Option α :=
  s.find? (fun x => getId x == k)

/-- `ProductStore.updateStock`: add the signed quantity to `currentStock`
    and refresh `lastUpdated`; `none` when the product id is unknown.
    The TS method mutates the store and returns the new product; here the
    updated store is returned alongside. -/
def ProductStore.updateStock (s : List Product) (productId : String) (quantity : ℚ)
    (now : ℤ) : Option (Product × List Product) :=
  match mapGet Product.id s productId with
  | none => none
  | some product =>
    let updated : Product :=
      { product with currentStock := product.currentStock + quantity, lastUpdated := now }
    some (updated, mapSet Product.id s updated)

/-- `AlertStore.resolve`: `update(id, -- resolved true, resolvedAt now --)`;
    note the TS code performs the overwrite whether or not the alert was
    already resolved. -/
def AlertStore.resolve (s : List Alert) (alertId : String) (now : ℤ) :
    Option Alert × List Alert :=
  match mapGet Alert.id s alertId with
  | none => (none, s)
  | some existing =>
    let updated : Alert := { existing with resolved := true, resolvedAt := some now }
    (some updated, mapSet Alert.id s updated)

/-- Exact rendering of a rational, standing in for JS number-to-string
    interpolation inside message texts. -/
def fmtQ (q : ℚ) : String := toString q.num ++ "/" ++ toString q.den

inductive Priority where
  | critical
  | high
  | medium
  | low
  deriving DecidableEq

/-- Recommendation record (services/AIRecommendations.ts);
    `estimatedDaysUntilStockout = none` models the JS value `Infinity`. -/
structure AIRecommendation where
  productId : String
  productName : String
  recommendation : String
  reasoning : String
  priority : Priority
  estimatedDaysUntilStockout : Option ℤ
  suggestedReorderQuantity : ℚ
  confidence : ℚ
  generatedAt : ℤ
  deriving DecidableEq

/-- `calculateSalesVelocity`: total SALE quantity over the trailing
    30 days divided by `Math.min(30, events ? 30 : 1)`. -/
def calculateSalesVelocity (events : List Event) (now : ℤ) : ℚ :=
  let thirtyDaysAgo := now - 30 * 24 * 60 * 60 * 1000
  let recentSales := events.filter
    (fun e => decide (e.type = EventType.SALE ∧ thirtyDaysAgo ≤ e.timestamp))
  let totalSold := (recentSales.map Event.quantity).sum
  let daysOfData : ℚ := min 30 (if 0 < recentSales.length then 30 else 1)
  totalSold / daysOfData

/-- Comparison of a possibly-infinite days-until-stockout with a finite
    bound; `none` is `Infinity`, which exceeds every bound. -/
def daysLt (d : Option ℚ) (bound : ℚ) : Bool :=
  match d with
  | none => false
  | some x => decide (x < bound)

/-- JS `Math.round`. -/
def jsRound (q : ℚ) : ℤ := ⌊q + 1/2⌋

/-- `calculateReorderQuantity`: 30 days of velocity plus a 20% buffer,
    capped by free capacity, floored at the reorder point. -/
def calculateReorderQuantity (product : Product) (salesVelocity : ℚ) : ℚ :=
  let targetDays : ℚ := 30
  let safetyBuffer : ℚ := 1/5
  let baseQuantity := salesVelocity * targetDays
  let quantityWithBuffer := baseQuantity * (1 + safetyBuffer)
  let availableCapacity := product.maxCapacity - product.currentStock
  let recommendedQuantity := min quantityWithBuffer availableCapacity
  max ((jsRound recommendedQuantity : ℚ)) product.reorderPoint

/-- Rendering of `Math.ceil(daysUntilStockout)` inside reasoning text. -/
def ceilStr (d : Option ℚ) : String :=
  match d with
  | none => "Infinity"
  | some x => toString (⌈x⌉ : ℤ)

/-- `analyzeProduct`: the needs-attention gate followed by the strict
    priority ladder. -/
def analyzeProduct (product : Product) (allEvents : List Event) (allAlerts : List Alert)
    (now : ℤ) : Option AIRecommendation :=
  let productEvents := allEvents.filter (fun e => decide (e.productId = product.id))
  let productAlerts := allAlerts.filter
    (fun a => decide (a.productId = product.id) && !a.resolved)
  let salesVelocity := calculateSalesVelocity productEvents now
  let stockPercentage := product.currentStock / product.maxCapacity * 100
  let daysUntilStockout : Option ℚ :=
    if 0 < salesVelocity then some (product.currentStock / salesVelocity) else none
  let needsRecommendation :=
    decide (product.currentStock ≤ product.reorderPoint) ||
      daysLt daysUntilStockout 14 ||
      decide (0 < productAlerts.length) ||
      decide (stockPercentage < 20)
  if !needsRecommendation then none
  else
    let mk := fun (priority : Priority) (recText reasonText : String) (confidence : ℚ) =>
      ({ productId := product.id, productName := product.name,
         recommendation := recText, reasoning := reasonText, priority := priority,
         estimatedDaysUntilStockout := daysUntilStockout.map (fun x => ⌈x⌉),
         suggestedReorderQuantity := calculateReorderQuantity product salesVelocity,
         confidence := confidence, generatedAt := now } : AIRecommendation)
    if product.currentStock = 0 then
      some (mk Priority.critical
        ("URGENT: Restock " ++ product.name ++ " immediately")
        ("Product is out of stock. Historical sales velocity: " ++ fmtQ salesVelocity ++
          " units/day. Risk of lost sales and customer dissatisfaction.")
        (95/100))
    else if daysLt daysUntilStockout 3 then
      some (mk Priority.critical
        ("Expedite restock for " ++ product.name ++ " - stockout imminent")
        ("At current sales velocity (" ++ fmtQ salesVelocity ++
          " units/day), stock will deplete in " ++ ceilStr daysUntilStockout ++
          " days. Immediate action required.")
        (90/100))
    else if daysLt daysUntilStockout 7 then
      some (mk Priority.high
        ("Reorder " ++ product.name ++ " this week")
        ("Stock will run out in ~" ++ ceilStr daysUntilStockout ++
          " days at current velocity (" ++ fmtQ salesVelocity ++
          " units/day). Reorder now to maintain buffer stock.")
        (85/100))
    else if product.currentStock ≤ product.reorderPoint then
      some (mk Priority.high
        ("Reorder " ++ product.name ++ " - below reorder point")
        ("Current stock (" ++ fmtQ product.currentStock ++
          ") is at or below reorder point (" ++ fmtQ product.reorderPoint ++
          "). Standard reorder recommended.")
        (80/100))
    else if daysLt daysUntilStockout 14 then
      some (mk Priority.medium
        ("Schedule reorder for " ++ product.name)
        ("Stock adequate for ~" ++ ceilStr daysUntilStockout ++
          " days. Plan reorder to maintain optimal inventory levels.")
        (75/100))
    else
      some (mk Priority.low
        ("Monitor " ++ product.name ++ " stock levels")
        ("Current stock is adequate but showing declining trend. Continue monitoring.")
        (70/100))

def priorityOrder : Priority → ℕ
  | Priority.critical => 0
  | Priority.high => 1
  | Priority.medium => 2
  | Priority.low => 3

/-- The JS sort comparator in `generateRecommendations`: ascending
    priority rank, ties broken by descending confidence. -/
def recLE (a b : AIRecommendation) : Bool :=
  decide (priorityOrder a.priority < priorityOrder b.priority) ||
    (decide (priorityOrder a.priority = priorityOrder b.priority) &&
      decide (b.confidence ≤ a.confidence))

/-- The whole in-memory system state: the three singleton stores. -/
structure SysState where
  products : List Product
  events : List Event
  alerts : List Alert
  deriving DecidableEq

/-- The uncached body of `generateRecommendations`: analyze every
    product, keep the non-null results, sort. -/
def computeRecommendations (st : SysState) (now : ℤ) : List AIRecommendation :=
  (st.products.filterMap (fun p => analyzeProduct p st.events st.alerts now)).mergeSort recLE

/-- The module-level recommendation cache slot: the stored batch and its
    write timestamp. -/
abbrev RecCache := Option (List AIRecommendation × ℤ)

def CACHE_TTL_MS : ℤ := 5 * 60 * 1000

/-- `generateRecommendations` with its module-level cache made explicit:
    takes the cache slot and the call time, returns the produced list and
    the updated slot. -/
def generateRecommendations (st : SysState) (cache : RecCache) (now : ℤ) :
    List AIRecommendation × RecCache :=
  match cache with
  | some (recs, ts) =>
    if now - ts < CACHE_TTL_MS then (recs, some (recs, ts))
    else
      let fresh := computeRecommendations st now
      (fresh, some (fresh, now))
  | none =>
    let fresh := computeRecommendations st now
    (fresh, some (fresh, now))

/-- `getProductRecommendation`: direct single-product analysis; the TS
    function never consults the cache. -/
def getProductRecommendation (productId : String) (st : SysState) (now : ℤ) :
    Option AIRecommendation :=
  match st.products.find? (fun p => decide (p.id = productId)) with
  | none => none
  | some product => analyzeProduct product st.events st.alerts now

/-- The per-alert-type resolution condition tested by
    `EventHandler.autoResolveAlerts`. -/
def shouldResolveAlert (t : AlertType) (product : Product) : Bool :=
  match t with
  | AlertType.CRITICAL_LOW_STOCK => decide (10 ≤ product.currentStock)
  | AlertType.LOW_STOCK => decide (product.reorderPoint ≤ product.currentStock)
  | AlertType.REORDER_NEEDED => decide (product.reorderPoint ≤ product.currentStock)
  | AlertType.OVERSTOCK => decide (product.currentStock ≤ product.maxCapacity * (9/10))
  | _ => false

/-- `EventHandler.autoResolveAlerts`: snapshot the product's unresolved
    alerts, then resolve each whose condition no longer holds. -/
def autoResolveAlerts (st : SysState) (product : Product) (now : ℤ) : SysState :=
  let activeAlerts := st.alerts.filter
    (fun a => decide (a.productId = product.id) && !a.resolved)
  { st with
    alerts := activeAlerts.foldl
      (fun s alert =>
        if shouldResolveAlert alert.type product then
          (AlertStore.resolve s alert.id now).2
        else s)
      st.alerts }

/-- `EventHandler.createAlert`: dedup on unresolved (productId, type),
    snapshot an AI recommendation, store the new alert. `newId` stands
    for the generated uuid. -/
def createAlert (st : SysState) (product : Product) (severity : AlertSeverity)
    (ty : AlertType) (message : String) (newId : String) (now : ℤ) : SysState :=
  let existingAlert := st.alerts.filter
    (fun a => decide (a.productId = product.id) && decide (a.type = ty) && !a.resolved)
  if 0 < existingAlert.length then st
  else
    let aiRecommendation := getProductRecommendation product.id st now
    let alert : Alert :=
      { id := newId, productId := product.id, severity := severity, type := ty,
        message := message,
        aiRecommendation := aiRecommendation.map (fun r => r.recommendation),
        resolved := false, timestamp := now, resolvedAt := none }
    { st with alerts := mapSet Alert.id st.alerts alert }

/-- `EventHandler.checkRapidDepletion`: net change over the trailing hour
    against the stock at the window start.  In JS a zero window-start
    stock makes the ratio `Infinity` (or `NaN` when the net change is
    also zero); the case split reproduces that. -/
def checkRapidDepletion (st : SysState) (product : Product) (now : ℤ) : Bool :=
  let oneHourAgo := now - 60 * 60 * 1000
  let recentEvents := (st.events.filter (fun e => decide (e.productId = product.id))).filter
    (fun e => decide (oneHourAgo ≤ e.timestamp))
  let netChange := recentEvents.foldl
    (fun acc e =>
      match e.type with
      | EventType.SALE => acc - e.quantity
      | EventType.RESTOCK => acc + e.quantity
      | EventType.RETURN => acc + e.quantity
      | EventType.ALERT => acc) 0
  let stockAtStartOfHour := product.currentStock - netChange
  let depletionExceeds :=
    if stockAtStartOfHour = 0 then decide (netChange ≠ 0)
    else decide ((3/10 : ℚ) < |netChange| / stockAtStartOfHour)
  decide (netChange < 0) && depletionExceeds

/-- Trigger 1/2 of `checkAlertConditions`: critical low stock, else-if
    low stock warning. -/
def triggerCriticalOrLow (st : SysState) (product : Product) (newId : String)
    (now : ℤ) : SysState :=
  if product.currentStock < 10 ∧ 0 ≤ product.currentStock then
    createAlert st product AlertSeverity.critical AlertType.CRITICAL_LOW_STOCK
      ("Critical: " ++ product.name ++ " has only " ++ fmtQ product.currentStock ++
        " units remaining!") newId now
  else if product.currentStock < product.reorderPoint then
    createAlert st product AlertSeverity.warning AlertType.LOW_STOCK
      ("Warning: " ++ product.name ++ " stock (" ++ fmtQ product.currentStock ++
        ") below reorder point (" ++ fmtQ product.reorderPoint ++ ")") newId now
  else st

/-- Trigger 3 of `checkAlertConditions`: overstock. -/
def triggerOverstock (st : SysState) (product : Product) (newId : String)
    (now : ℤ) : SysState :=
  if product.maxCapacity * (9/10) < product.currentStock then
    createAlert st product AlertSeverity.info AlertType.OVERSTOCK
      ("Info: " ++ product.name ++ " is overstocked (" ++ fmtQ product.currentStock ++
        "/" ++ fmtQ product.maxCapacity ++ ")") newId now
  else st

/-- Trigger 4 of `checkAlertConditions`: rapid depletion, evaluated only
    on SALE events. -/
def triggerRapidDepletion (st : SysState) (product : Product) (event : Event)
    (newId : String) (now : ℤ) : SysState :=
  if event.type = EventType.SALE ∧ checkRapidDepletion st product now = true then
    createAlert st product AlertSeverity.warning AlertType.RAPID_DEPLETION
      ("Warning: " ++ product.name ++
        " experiencing rapid depletion - stock decreased by more than 30 percent in the last hour")
      newId now
  else st

/-- Trigger 5 of `checkAlertConditions`: reorder needed. -/
def triggerReorderNeeded (st : SysState) (product : Product) (newId : String)
    (now : ℤ) : SysState :=
  if product.currentStock ≤ product.reorderPoint ∧ 0 < product.currentStock then
    createAlert st product AlertSeverity.warning AlertType.REORDER_NEEDED
      ("Reorder needed for " ++ product.name ++ " - current stock: " ++
        fmtQ product.currentStock ++ ", reorder point: " ++ fmtQ product.reorderPoint)
      newId now
  else st

/-- `EventHandler.checkAlertConditions`: the five triggers in source
    order (critical/low are an else-if chain, the rest independent), then
    unconditional auto-resolution.  `ids n` supplies the uuid for the
    n-th creation site. -/
def checkAlertConditions (st : SysState) (product : Product) (event : Event)
    (now : ℤ) (ids : ℕ → String) : SysState :=
  autoResolveAlerts
    (triggerReorderNeeded
      (triggerRapidDepletion
        (triggerOverstock
          (triggerCriticalOrLow st product (ids 0) now)
          product (ids 1) now)
        product event (ids 2) now)
      product (ids 3) now)
    product now

/-- Signed stock delta of an event as computed in `processEvent`. -/
def eventDelta (e : Event) : ℚ :=
  match e.type with
  | EventType.SALE => -e.quantity
  | _ => e.quantity

/-- `EventHandler.processEvent`: store the event, look the product up
    (bail out when absent), apply the delta, evaluate alerts.  Broadcast
    calls are pure notifications and have no effect on the stores. -/
def EventHandler.processEvent (st : SysState) (event : Event) (now : ℤ)
    (ids : ℕ → String) : SysState :=
  let st1 : SysState := { st with events := mapSet Event.id st.events event }
  match mapGet Product.id st1.products event.productId with
  | none => st1
  | some _ =>
    match event.type with
    | EventType.ALERT => st1
    | _ =>
      match ProductStore.updateStock st1.products event.productId (eventDelta event) now with
      | none => st1
      | some (updatedProduct, products2) =>
        checkAlertConditions { st1 with products := products2 } updatedProduct event now ids

/-- One inbound delivery: the event plus the wall-clock time of its
    processing and the uuid supply for alert creation. -/
structure Delivery where
  event : Event
  now : ℤ
  ids : ℕ → String

/-- Sequential processing of a list of deliveries. -/
def processAll (st : SysState) (steps : List Delivery) : SysState :=
  steps.foldl (fun s d => EventHandler.processEvent s d.event d.now d.ids) st

/-- `POST /alerts/:id/resolve` (and `EventHandler.resolveAlert`): both
    call `alertStore.resolve` directly. -/
def resolveAlertRoute (st : SysState) (alertId : String) (now : ℤ) :
    Option Alert × SysState :=
  let r := AlertStore.resolve st.alerts alertId now
  (r.1, { st with alerts := r.2 })

/-- `calculateDailyStockChanges` (services/Forecasting.ts): keep events
    inside the trailing `days`-day window, group them by calendar day
    (modelled as the UTC day index of the millisecond timestamp) with a
    JS Map accumulating the signed net change per day, and return the
    accumulated values in first-occurrence order.  An in-window event of
    the unhandled ALERT kind still creates its day bucket with change 0,
    exactly as the TS switch does. -/
def calculateDailyStockChanges (events : List Event) (days : ℤ) (now : ℤ) : List ℚ :=
  let startDate := now - days * 24 * 60 * 60 * 1000
  (events.foldl
    (fun (buckets : List (ℤ × ℚ)) e =>
      if startDate ≤ e.timestamp then
        let dayKey := e.timestamp / 86400000
        let currentChange := ((buckets.find? (fun kv => kv.1 == dayKey)).map Prod.snd).getD 0
        let change : ℚ :=
          match e.type with
          | EventType.SALE => -e.quantity
          | EventType.RESTOCK => e.quantity
          | EventType.RETURN => e.quantity
          | EventType.ALERT => 0
        if buckets.any (fun kv => kv.1 == dayKey) then
          buckets.map (fun kv => if kv.1 == dayKey then (dayKey, currentChange + change) else kv)
        else buckets ++ [(dayKey, currentChange + change)]
      else buckets)
    []).map Prod.snd

/-- `calculateConfidence`: the coefficient-of-variation score over the
    daily changes, clamped to [0.1, 0.95] and rounded to two decimals
    (JS Math.round); 0.5 with fewer than two buckets. -/
noncomputable def calculateConfidence (values : List ℚ) : ℝ :=
  if values.length < 2 then 1/2
  else
    let n : ℝ := values.length
    let mean : ℝ := ((values.map (fun q => (q : ℝ))).sum) / n
    let variance : ℝ := ((values.map (fun q => ((q : ℝ) - mean) ^ 2)).sum) / n
    let stdDev := Real.sqrt variance
    let coefficientOfVariation := if mean ≠ 0 then |stdDev / mean| else 1
    let confidence := max (1/10) (min (19/20) (1 - coefficientOfVariation))
    (⌊confidence * 100 + 1/2⌋ : ℝ) / 100

/-- Forecast record (services/Forecasting.ts). -/
structure ForecastResult where
  productId : String
  productName : String
  currentStock : ℚ
  predictedStock7d : ℤ
  predictedDemand7d : ℤ
  reorderRecommended : Bool
  confidence : ℝ
  forecastDate : ℤ

/-- `calculateSMAForecast`: average daily change over the historical
    window projected `daysToForecast` days ahead (clamped at 0); the JS
    `reduce(..)/length || 0` collapses the empty-window NaN to 0. -/
noncomputable def calculateSMAForecast (product : Product) (events : List Event)
    (daysToForecast : ℚ) (historicalDays : ℤ) (now : ℤ) : ForecastResult :=
  let productEvents := events.filter (fun e => decide (e.productId = product.id))
  let dailyChanges := calculateDailyStockChanges productEvents historicalDays now
  let avgDailyChange : ℚ :=
    if dailyChanges.length = 0 then 0 else dailyChanges.sum / dailyChanges.length
  let predictedStock := max 0 (product.currentStock + avgDailyChange * daysToForecast)
  let predictedDemand := |avgDailyChange * daysToForecast|
  { productId := product.id, productName := product.name,
    currentStock := product.currentStock,
    predictedStock7d := jsRound predictedStock,
    predictedDemand7d := jsRound predictedDemand,
    reorderRecommended := decide (predictedStock < product.reorderPoint),
    confidence := calculateConfidence dailyChanges,
    forecastDate := now }

/-- Compatibility of two registry entries with the dedup key: they must
    not both be unresolved with the same (productId, type). -/
def dedupRel (a b : Alert) : Prop :=
  a.resolved = false → b.resolved = false → a.productId = b.productId → a.type ≠ b.type

instance : DecidableRel dedupRel := fun a b => by
  unfold dedupRel
  infer_instance

/-- At most one unresolved Alert per (productId, type): no two distinct
    entries of the registry are simultaneously unresolved with the same
    dedup key. -/
def dedupOK (alerts : List Alert) : Prop :=
  alerts.Pairwise dedupRel

instance (alerts : List Alert) : Decidable (dedupOK alerts) := by
  unfold dedupOK
  infer_instance

/-- The registry invariant maintained by the processing pipeline: the
    JS Map cannot hold duplicate ids, and the unresolved alerts are
    deduplicated per (productId, type). -/
def alertInvariant (st : SysState) : Prop :=
  (st.alerts.map Alert.id).Nodup ∧ dedupOK st.alerts

instance (st : SysState) : Decidable (alertInvariant st) := by
  unfold alertInvariant
  infer_instance


/-- A concrete product record used to instantiate theorems on explicit
    inputs. -/
def mkProduct (id : String) (stock rp cap : ℚ) : Product :=
  { id := id, sku := id, name := id, category := "general", warehouse := "wh1",
    currentStock := stock, reorderPoint := rp, maxCapacity := cap, unitPrice := 1,
    predictedStock7d := 0, lastUpdated := 0 }

/-- A concrete event record used to instantiate theorems on explicit
    inputs. -/
def mkEvent (id : String) (ty : EventType) (pid : String) (q : ℚ) (t : ℤ) : Event :=
  { id := id, type := ty, productId := pid, quantity := q, warehouse := "wh1",
    timestamp := t, metadata := none }

/-- A concrete alert record used to instantiate theorems on explicit
    inputs. -/
def mkAlert (id pid : String) (ty : AlertType) (res : Bool) (rAt : Option ℤ) : Alert :=
  { id := id, productId := pid, severity := AlertSeverity.warning, type := ty,
    message := "m", aiRecommendation := none, resolved := res, timestamp := 0,
    resolvedAt := rAt }

/- Rational arithmetic in the Batteries library is `@[irreducible]`;
   re-enable kernel evaluation so that concrete runs of the embedded
   operations can be settled by `decide`. -/
attribute [local semireducible] Rat.add Rat.mul Rat.inv Rat.sub


/-- The in-place replacement pass of `mapSet` (the branch taken when the
    key is already present). -/
def replaceKey (getId : α → String) (s : List α) (x : α) : List α :=
  s.map (fun y => if getId y == getId x then x else y)

theorem mapSet_eq (getId : α → String) (s : List α) (x : α) :
    mapSet getId s x =
      if s.any (fun y => getId y == getId x) then replaceKey getId s x else s ++ [x] := rfl

theorem hasKey_iff (getId : α → String) (s : List α) (x : α) :
    s.any (fun y => getId y == getId x) = true ↔ ∃ y ∈ s, getId y = getId x := by
  simp [List.any_eq_true]

theorem replaceKey_cons_eq (getId : α → String) (a : α) (s : List α) (x : α)
    (h : getId a = getId x) : replaceKey getId (a :: s) x = x :: replaceKey getId s x := by
  simp [replaceKey, h]

theorem replaceKey_cons_ne (getId : α → String) (a : α) (s : List α) (x : α)
    (h : getId a ≠ getId x) : replaceKey getId (a :: s) x = a :: replaceKey getId s x := by
  simp [replaceKey, h]

theorem replaceKey_eq_self (getId : α → String) (s : List α) (x : α)
    (h : ∀ y ∈ s, getId y ≠ getId x) : replaceKey getId s x = s := by
  refine (List.map_congr_left ?_).trans (List.map_id _)
  intro y hy
  simp [h y hy]

theorem replaceKey_map_getId (getId : α → String) (s : List α) (x : α) :
    (replaceKey getId s x).map getId = s.map getId := by
  simp only [replaceKey, List.map_map]
  refine List.map_congr_left ?_
  intro y _
  by_cases hm : getId y = getId x <;> simp [hm]

theorem mem_replaceKey_of_ne (getId : α → String) (s : List α) (x y : α)
    (hy : y ∈ s) (h : getId y ≠ getId x) : y ∈ replaceKey getId s x :=
  List.mem_map.mpr ⟨y, hy, by simp [h]⟩

theorem mem_replaceKey (getId : α → String) (s : List α) (x y : α)
    (hy : y ∈ replaceKey getId s x) : y = x ∨ (y ∈ s ∧ getId y ≠ getId x) := by
  rcases List.mem_map.mp hy with ⟨z, hz, hzy⟩
  by_cases hm : getId z = getId x
  · left
    rw [← hzy]
    simp [hm]
  · right
    have : z = y := by rw [← hzy]; simp [hm]
    exact ⟨this ▸ hz, this ▸ hm⟩

theorem mapGet_nil (getId : α → String) (k : String) : mapGet getId [] k = none := rfl

theorem mapGet_cons_self (getId : α → String) (a : α) (s : List α) (k : String)
    (h : getId a = k) : mapGet getId (a :: s) k = some a := by
  simp [mapGet, List.find?_cons, h]

theorem mapGet_cons_ne (getId : α → String) (a : α) (s : List α) (k : String)
    (h : getId a ≠ k) : mapGet getId (a :: s) k = mapGet getId s k := by
  simp [mapGet, List.find?_cons, h]

theorem mapGet_eq_some (getId : α → String) (s : List α) (k : String) (a : α)
    (h : mapGet getId s k = some a) : a ∈ s ∧ getId a = k := by
  refine ⟨List.mem_of_find?_eq_some h, ?_⟩
  have := List.find?_some h
  simpa using this

theorem mapGet_eq_none_iff (getId : α → String) (s : List α) (k : String) :
    mapGet getId s k = none ↔ ∀ a ∈ s, getId a ≠ k := by
  simp [mapGet, List.find?_eq_none]

theorem mapGet_isSome_of_mem (getId : α → String) (s : List α) (a : α) (ha : a ∈ s) :
    ∃ b, mapGet getId s (getId a) = some b := by
  cases hg : mapGet getId s (getId a) with
  | some b => exact ⟨b, rfl⟩
  | none => exact absurd rfl ((mapGet_eq_none_iff getId s (getId a)).mp hg a ha)

theorem mapGet_replaceKey_self (getId : α → String) (s : List α) (x : α)
    (h : ∃ y ∈ s, getId y = getId x) :
    mapGet getId (replaceKey getId s x) (getId x) = some x := by
  induction s with
  | nil => simp at h
  | cons a s ih =>
    by_cases hm : getId a = getId x
    · rw [replaceKey_cons_eq getId a s x hm, mapGet_cons_self getId x _ _ rfl]
    · rw [replaceKey_cons_ne getId a s x hm, mapGet_cons_ne getId a _ _ hm]
      rcases h with ⟨y, hy, hid⟩
      rcases List.mem_cons.mp hy with rfl | hy'
      · exact absurd hid hm
      · exact ih ⟨y, hy', hid⟩

theorem mapGet_replaceKey_ne (getId : α → String) (s : List α) (x : α) (k : String)
    (h : k ≠ getId x) : mapGet getId (replaceKey getId s x) k = mapGet getId s k := by
  induction s with
  | nil => rfl
  | cons a s ih =>
    by_cases hm : getId a = getId x
    · rw [replaceKey_cons_eq getId a s x hm,
        mapGet_cons_ne getId x _ _ (fun hc => h hc.symm),
        mapGet_cons_ne getId a _ _ (fun hc => h (hm.symm.trans hc).symm)]
      exact ih
    · rw [replaceKey_cons_ne getId a s x hm]
      by_cases hak : getId a = k
      · rw [mapGet_cons_self getId a _ _ hak, mapGet_cons_self getId a _ _ hak]
      · rw [mapGet_cons_ne getId a _ _ hak, mapGet_cons_ne getId a _ _ hak]
        exact ih

theorem mapGet_mapSet_self (getId : α → String) (s : List α) (x : α) :
    mapGet getId (mapSet getId s x) (getId x) = some x := by
  rw [mapSet_eq]
  by_cases hany : s.any (fun y => getId y == getId x) = true
  · rw [if_pos hany]
    exact mapGet_replaceKey_self getId s x ((hasKey_iff getId s x).mp hany)
  · rw [if_neg hany]
    have hnone : mapGet getId s (getId x) = none := by
      rw [mapGet_eq_none_iff]
      intro a ha hc
      exact hany ((hasKey_iff getId s x).mpr ⟨a, ha, hc⟩)
    unfold mapGet at hnone ⊢
    rw [List.find?_append, hnone]
    simp [List.find?_cons]

theorem mapGet_mapSet_ne (getId : α → String) (s : List α) (x : α) (k : String)
    (h : k ≠ getId x) : mapGet getId (mapSet getId s x) k = mapGet getId s k := by
  rw [mapSet_eq]
  by_cases hany : s.any (fun y => getId y == getId x) = true
  · rw [if_pos hany]
    exact mapGet_replaceKey_ne getId s x k h
  · rw [if_neg hany]
    unfold mapGet
    rw [List.find?_append]
    cases hg : List.find? (fun y => getId y == k) s with
    | some a => simp
    | none => simp [List.find?_cons, (Ne.symm h : getId x ≠ k)]

theorem mem_mapSet_self (getId : α → String) (s : List α) (x : α) :
    x ∈ mapSet getId s x := by
  rw [mapSet_eq]
  by_cases hany : s.any (fun y => getId y == getId x) = true
  · rw [if_pos hany]
    rcases (hasKey_iff getId s x).mp hany with ⟨y, hy, hid⟩
    exact List.mem_map.mpr ⟨y, hy, by simp [hid]⟩
  · rw [if_neg hany]
    simp

theorem mem_of_mem_mapSet (getId : α → String) (s : List α) (x y : α)
    (hy : y ∈ mapSet getId s x) : y = x ∨ (y ∈ s ∧ getId y ≠ getId x) := by
  rw [mapSet_eq] at hy
  by_cases hany : s.any (fun y => getId y == getId x) = true
  · rw [if_pos hany] at hy
    exact mem_replaceKey getId s x y hy
  · rw [if_neg hany] at hy
    rcases List.mem_append.mp hy with h | h
    · right
      refine ⟨h, fun hc => hany ((hasKey_iff getId s x).mpr ⟨y, h, hc⟩)⟩
    · left; simpa using h

theorem mem_mapSet_of_mem (getId : α → String) (s : List α) (x y : α)
    (hy : y ∈ s) (h : getId y ≠ getId x) : y ∈ mapSet getId s x := by
  rw [mapSet_eq]
  by_cases hany : s.any (fun y => getId y == getId x) = true
  · rw [if_pos hany]
    exact List.mem_map.mpr ⟨y, hy, by simp [h]⟩
  · rw [if_neg hany]
    exact List.mem_append.mpr (Or.inl hy)

theorem mapSet_map_getId_of_mem (getId : α → String) (s : List α) (x : α)
    (h : ∃ y ∈ s, getId y = getId x) :
    (mapSet getId s x).map getId = s.map getId := by
  rw [mapSet_eq, if_pos ((hasKey_iff getId s x).mpr h)]
  exact replaceKey_map_getId getId s x

theorem mapSet_map_getId_of_not_mem (getId : α → String) (s : List α) (x : α)
    (h : ∀ y ∈ s, getId y ≠ getId x) :
    (mapSet getId s x).map getId = s.map getId ++ [getId x] := by
  have hany : ¬s.any (fun y => getId y == getId x) = true := by
    rw [hasKey_iff]
    push_neg
    exact h
  rw [mapSet_eq, if_neg hany]
  simp

theorem nodup_mapSet (getId : α → String) (s : List α) (x : α)
    (h : (s.map getId).Nodup) : ((mapSet getId s x).map getId).Nodup := by
  by_cases hex : ∃ y ∈ s, getId y = getId x
  · rw [mapSet_map_getId_of_mem getId s x hex]; exact h
  · push_neg at hex
    rw [mapSet_map_getId_of_not_mem getId s x hex]
    refine List.Nodup.append h (List.nodup_singleton _) ?_
    intro k hk hk1
    rcases List.mem_map.mp hk with ⟨y, hy, rfl⟩
    exact hex y hy (by simpa using hk1)

theorem createAlert_products (st : SysState) (p : Product) (sev : AlertSeverity)
    (ty : AlertType) (msg newId : String) (now : ℤ) :
    (createAlert st p sev ty msg newId now).products = st.products := by
  unfold createAlert
  dsimp only
  split <;> rfl

theorem createAlert_events (st : SysState) (p : Product) (sev : AlertSeverity)
    (ty : AlertType) (msg newId : String) (now : ℤ) :
    (createAlert st p sev ty msg newId now).events = st.events := by
  unfold createAlert
  dsimp only
  split <;> rfl

theorem autoResolveAlerts_products (st : SysState) (p : Product) (now : ℤ) :
    (autoResolveAlerts st p now).products = st.products := rfl

theorem autoResolveAlerts_events (st : SysState) (p : Product) (now : ℤ) :
    (autoResolveAlerts st p now).events = st.events := rfl

theorem triggerCriticalOrLow_products (st : SysState) (p : Product) (i : String)
    (now : ℤ) : (triggerCriticalOrLow st p i now).products = st.products := by
  unfold triggerCriticalOrLow
  split_ifs <;> simp [createAlert_products]

theorem triggerOverstock_products (st : SysState) (p : Product) (i : String)
    (now : ℤ) : (triggerOverstock st p i now).products = st.products := by
  unfold triggerOverstock
  split_ifs <;> simp [createAlert_products]

theorem triggerRapidDepletion_products (st : SysState) (p : Product) (e : Event)
    (i : String) (now : ℤ) :
    (triggerRapidDepletion st p e i now).products = st.products := by
  unfold triggerRapidDepletion
  split_ifs <;> simp [createAlert_products]

theorem triggerReorderNeeded_products (st : SysState) (p : Product) (i : String)
    (now : ℤ) : (triggerReorderNeeded st p i now).products = st.products := by
  unfold triggerReorderNeeded
  split_ifs <;> simp [createAlert_products]

theorem triggerCriticalOrLow_events (st : SysState) (p : Product) (i : String)
    (now : ℤ) : (triggerCriticalOrLow st p i now).events = st.events := by
  unfold triggerCriticalOrLow
  split_ifs <;> simp [createAlert_events]

theorem triggerOverstock_events (st : SysState) (p : Product) (i : String)
    (now : ℤ) : (triggerOverstock st p i now).events = st.events := by
  unfold triggerOverstock
  split_ifs <;> simp [createAlert_events]

theorem triggerRapidDepletion_events (st : SysState) (p : Product) (e : Event)
    (i : String) (now : ℤ) :
    (triggerRapidDepletion st p e i now).events = st.events := by
  unfold triggerRapidDepletion
  split_ifs <;> simp [createAlert_events]

theorem triggerReorderNeeded_events (st : SysState) (p : Product) (i : String)
    (now : ℤ) : (triggerReorderNeeded st p i now).events = st.events := by
  unfold triggerReorderNeeded
  split_ifs <;> simp [createAlert_events]

theorem checkAlertConditions_products (st : SysState) (p : Product) (e : Event)
    (now : ℤ) (ids : ℕ → String) :
    (checkAlertConditions st p e now ids).products = st.products := by
  unfold checkAlertConditions
  rw [autoResolveAlerts_products, triggerReorderNeeded_products,
    triggerRapidDepletion_products, triggerOverstock_products,
    triggerCriticalOrLow_products]

theorem checkAlertConditions_events (st : SysState) (p : Product) (e : Event)
    (now : ℤ) (ids : ℕ → String) :
    (checkAlertConditions st p e now ids).events = st.events := by
  unfold checkAlertConditions
  rw [autoResolveAlerts_events, triggerReorderNeeded_events,
    triggerRapidDepletion_events, triggerOverstock_events,
    triggerCriticalOrLow_events]

theorem AlertStore.resolve_map_id (s : List Alert) (aid : String) (now : ℤ) :
    ((AlertStore.resolve s aid now).2).map Alert.id = s.map Alert.id := by
  unfold AlertStore.resolve
  cases hg : mapGet Alert.id s aid with
  | none => rfl
  | some a =>
    dsimp only
    have ha := mapGet_eq_some Alert.id s aid a hg
    exact mapSet_map_getId_of_mem Alert.id s _ ⟨a, ha.1, rfl⟩

/-- Every entry of the store after `AlertStore.resolve` is either an
    untouched original entry or the resolved copy of the entry found
    under the requested id. -/
theorem AlertStore.resolve_mem (s : List Alert) (aid : String) (now : ℤ) (a' : Alert)
    (h : a' ∈ (AlertStore.resolve s aid now).2) :
    a' ∈ s ∨ ∃ a, mapGet Alert.id s aid = some a ∧
      a' = { a with resolved := true, resolvedAt := some now } := by
  unfold AlertStore.resolve at h
  cases hg : mapGet Alert.id s aid with
  | none => rw [hg] at h; exact Or.inl h
  | some a =>
    rw [hg] at h
    dsimp only at h
    rcases mem_of_mem_mapSet Alert.id s _ a' h with h1 | h1
    · exact Or.inr ⟨a, rfl, h1⟩
    · exact Or.inl h1.1

/-- After `AlertStore.resolve s aid`, every entry stored under id `aid`
    carries `resolved = true` (provided some entry with that id exists). -/
theorem AlertStore.resolve_makes_resolved (s : List Alert) (aid : String) (now : ℤ)
    (a0 : Alert) (h0 : mapGet Alert.id s aid = some a0) (a' : Alert)
    (h : a' ∈ (AlertStore.resolve s aid now).2) (hid : a'.id = aid) :
    a'.resolved = true := by
  unfold AlertStore.resolve at h
  rw [h0] at h
  dsimp only at h
  rcases mem_of_mem_mapSet Alert.id s _ a' h with h1 | h1
  · rw [h1]
  · exact absurd (hid.trans (mapGet_eq_some Alert.id s aid a0 h0).2.symm) h1.2

/-- `AlertStore.resolve` tracks each entry: the id, productId and type are
    preserved and the `resolved` flag is monotone. -/
theorem AlertStore.resolve_tracking (s : List Alert) (aid : String) (now : ℤ)
    (hnd : (s.map Alert.id).Nodup) (a : Alert) (ha : a ∈ s) :
    ∃ a' ∈ (AlertStore.resolve s aid now).2,
      a'.id = a.id ∧ a'.productId = a.productId ∧ a'.type = a.type ∧
        (a.resolved = true → a'.resolved = true) := by
  unfold AlertStore.resolve
  cases hg : mapGet Alert.id s aid with
  | none => exact ⟨a, ha, rfl, rfl, rfl, fun h => h⟩
  | some a0 =>
    dsimp only
    have h0 := mapGet_eq_some Alert.id s aid a0 hg
    by_cases hac : a.id = aid
    · -- with no duplicate ids, `a` is the found entry and gets replaced
      have : a = a0 :=
        List.inj_on_of_nodup_map hnd ha h0.1 (hac.trans h0.2.symm)
      subst this
      refine ⟨{ a with resolved := true, resolvedAt := some now }, ?_, rfl, rfl, rfl, ?_⟩
      · exact mem_mapSet_self Alert.id s _
      · intro; rfl
    · refine ⟨a, ?_, rfl, rfl, rfl, fun h => h⟩
      exact mem_mapSet_of_mem Alert.id s _ a ha (fun hc => hac (hc.trans h0.2))

/-- When the target product is unknown, `processEvent` stores the event
    and stops: the product store and the alert store are untouched, the
    History has gained the event. -/
theorem processEvent_unknown (st : SysState) (e : Event) (now : ℤ) (ids : ℕ → String)
    (h : mapGet Product.id st.products e.productId = none) :
    EventHandler.processEvent st e now ids =
      { st with events := mapSet Event.id st.events e } := by
  unfold EventHandler.processEvent
  dsimp only
  rw [h]

/-- Processing a well-formed event whose product exists updates exactly
    that product's entry: afterwards the entry holds the old stock plus
    the signed delta and the fresh timestamp. -/
theorem processEvent_stock (st : SysState) (e : Event) (now : ℤ) (ids : ℕ → String)
    (p : Product) (hp : mapGet Product.id st.products e.productId = some p)
    (hty : e.type ≠ EventType.ALERT) :
    mapGet Product.id (EventHandler.processEvent st e now ids).products e.productId =
      some { p with currentStock := p.currentStock + eventDelta e, lastUpdated := now } := by
  have hpid : p.id = e.productId := (mapGet_eq_some Product.id st.products e.productId p hp).2
  obtain ⟨eid, ety, epid, eq, ew, et, em⟩ := e
  dsimp only at hp hpid ⊢
  unfold EventHandler.processEvent
  dsimp only
  rw [hp]
  cases ety with
  | ALERT => exact absurd rfl hty
  | SALE =>
    unfold ProductStore.updateStock
    rw [hp]
    dsimp only
    rw [checkAlertConditions_products]
    dsimp only
    rw [← hpid]
    exact mapGet_mapSet_self Product.id st.products _
  | RESTOCK =>
    unfold ProductStore.updateStock
    rw [hp]
    dsimp only
    rw [checkAlertConditions_products]
    dsimp only
    rw [← hpid]
    exact mapGet_mapSet_self Product.id st.products _
  | RETURN =>
    unfold ProductStore.updateStock
    rw [hp]
    dsimp only
    rw [checkAlertConditions_products]
    dsimp only
    rw [← hpid]
    exact mapGet_mapSet_self Product.id st.products _


/-- C4 counterexample: an event whose product is unknown is processed
    against the empty ledger; afterwards the History contains the event,
    so the state is not unchanged as the claim requires. -/
theorem unknownProductMutatesHistory :
    mapGet Product.id (SysState.mk [] [] []).products
        (mkEvent ("e1") EventType.SALE ("ghost") 5 0).productId = none ∧
      (EventHandler.processEvent (SysState.mk [] [] [])
          (mkEvent ("e1") EventType.SALE ("ghost") 5 0) 0 (fun _ => "u")).events ≠
        (SysState.mk [] [] []).events := by
  decide

/-- C4 (amended): when the Stock Event Processor receives an event whose
    target product identifier does not exist in the Ledger, it stops with
    the Ledger and the Alert Registry unchanged, but the event has
    already been appended to the History (the append happens before the
    product lookup). -/
theorem processEvent_unknown_product_frame (st : SysState) (e : Event) (now : ℤ)
    (ids : ℕ → String) (h : mapGet Product.id st.products e.productId = none) :
    (EventHandler.processEvent st e now ids).products = st.products ∧
      (EventHandler.processEvent st e now ids).alerts = st.alerts ∧
      (EventHandler.processEvent st e now ids).events = mapSet Event.id st.events e := by
  rw [processEvent_unknown st e now ids h]
  exact ⟨rfl, rfl, rfl⟩

/-- Witness for C4 (amended) at a concrete input. -/
theorem processEvent_unknown_product_frame_witness :
    mapGet Product.id (SysState.mk [] [] []).products
        (mkEvent ("e1") EventType.SALE ("ghost") 5 0).productId = none ∧
      ((EventHandler.processEvent (SysState.mk [] [] [])
            (mkEvent ("e1") EventType.SALE ("ghost") 5 0) 0 (fun _ => "u")).products =
          (SysState.mk [] [] []).products ∧
        (EventHandler.processEvent (SysState.mk [] [] [])
            (mkEvent ("e1") EventType.SALE ("ghost") 5 0) 0 (fun _ => "u")).alerts =
          (SysState.mk [] [] []).alerts ∧
        (EventHandler.processEvent (SysState.mk [] [] [])
            (mkEvent ("e1") EventType.SALE ("ghost") 5 0) 0 (fun _ => "u")).events =
          mapSet Event.id (SysState.mk [] [] []).events
            (mkEvent ("e1") EventType.SALE ("ghost") 5 0)) :=
  ⟨by decide,
    processEvent_unknown_product_frame (SysState.mk [] [] [])
      (mkEvent ("e1") EventType.SALE ("ghost") 5 0) 0 (fun _ => "u") (by decide)⟩

/-- C10: `ProductStore.updateStock` changes only the target product's
    `currentStock` and `lastUpdated` (the returned store is the original
    one with exactly the target entry replaced by a copy that differs
    only in those two fields), and every other product is untouched. -/
theorem updateStock_frame (products : List Product) (pid : String) (q : ℚ) (now : ℤ)
    (p : Product) (h : mapGet Product.id products pid = some p) :
    ProductStore.updateStock products pid q now =
        some ({ p with currentStock := p.currentStock + q, lastUpdated := now },
          replaceKey Product.id products
            { p with currentStock := p.currentStock + q, lastUpdated := now }) ∧
      ∀ x ∈ products, x.id ≠ pid →
        x ∈ replaceKey Product.id products
          { p with currentStock := p.currentStock + q, lastUpdated := now } := by
  have hpid : p.id = pid := (mapGet_eq_some Product.id products pid p h).2
  have hmem : p ∈ products := (mapGet_eq_some Product.id products pid p h).1
  constructor
  · unfold ProductStore.updateStock
    rw [h]
    dsimp only
    rw [mapSet_eq, if_pos ((hasKey_iff Product.id products _).mpr ⟨p, hmem, rfl⟩)]
  · intro x hx hne
    exact mem_replaceKey_of_ne Product.id products _ x hx (fun hc => hne (hc.trans hpid))

/-- Witness for C10 at a concrete two-product store. -/
theorem updateStock_frame_witness :
    mapGet Product.id [mkProduct ("p1") 5 10 100, mkProduct ("p2") 7 10 100] ("p1") =
        some (mkProduct ("p1") 5 10 100) ∧
      (ProductStore.updateStock [mkProduct ("p1") 5 10 100, mkProduct ("p2") 7 10 100]
            ("p1") 3 99 =
          some ({ mkProduct ("p1") 5 10 100 with
              currentStock := (mkProduct ("p1") 5 10 100).currentStock + 3,
              lastUpdated := 99 },
            replaceKey Product.id [mkProduct ("p1") 5 10 100, mkProduct ("p2") 7 10 100]
              { mkProduct ("p1") 5 10 100 with
                currentStock := (mkProduct ("p1") 5 10 100).currentStock + 3,
                lastUpdated := 99 }) ∧
        ∀ x ∈ [mkProduct ("p1") 5 10 100, mkProduct ("p2") 7 10 100], x.id ≠ "p1" →
          x ∈ replaceKey Product.id [mkProduct ("p1") 5 10 100, mkProduct ("p2") 7 10 100]
            { mkProduct ("p1") 5 10 100 with
              currentStock := (mkProduct ("p1") 5 10 100).currentStock + 3,
              lastUpdated := 99 }) :=
  ⟨by decide,
    updateStock_frame [mkProduct ("p1") 5 10 100, mkProduct ("p2") 7 10 100] ("p1") 3 99
      (mkProduct ("p1") 5 10 100) (by decide)⟩

theorem mapGet_of_nodup_mem (getId : α → String) (s : List α) (a : α)
    (hnd : (s.map getId).Nodup) (ha : a ∈ s) : mapGet getId s (getId a) = some a := by
  induction s with
  | nil => simp at ha
  | cons b s ih =>
    rw [List.map_cons] at hnd
    have hnd' := List.nodup_cons.mp hnd
    rcases List.mem_cons.mp ha with rfl | ha'
    · exact mapGet_cons_self getId a s (getId a) rfl
    · have hb : getId b ≠ getId a :=
        fun hc => hnd'.1 (hc ▸ List.mem_map.mpr ⟨a, ha', rfl⟩)
      rw [mapGet_cons_ne getId b s (getId a) hb]
      exact ih hnd'.2 ha'

theorem replaceKey_eq_self_of (getId : α → String) (s : List α) (x : α)
    (h : ∀ y ∈ s, getId y = getId x → y = x) : replaceKey getId s x = s := by
  refine (List.map_congr_left ?_).trans (List.map_id _)
  intro y hy
  by_cases hm : getId y = getId x
  · simp [hm, (h y hy hm).symm]
  · simp [hm]

theorem mapSet_idem (getId : α → String) (s : List α) (x : α) :
    mapSet getId (mapSet getId s x) x = mapSet getId s x := by
  have hmem : x ∈ mapSet getId s x := mem_mapSet_self getId s x
  rw [mapSet_eq (s := mapSet getId s x),
    if_pos ((hasKey_iff getId (mapSet getId s x) x).mpr ⟨x, hmem, rfl⟩)]
  refine replaceKey_eq_self_of getId _ x ?_
  intro y hy hid
  exact (mem_of_mem_mapSet getId s x y hy).resolve_right (fun hh => absurd hid hh.2)

/-- In every branch of `processEvent` the event store ends up as the old
    store with the event `Map.set` into it. -/
theorem processEvent_events (st : SysState) (e : Event) (now : ℤ) (ids : ℕ → String) :
    (EventHandler.processEvent st e now ids).events = mapSet Event.id st.events e := by
  obtain ⟨eid, ety, epid, eq, ew, et, em⟩ := e
  unfold EventHandler.processEvent
  dsimp only
  cases hm : mapGet Product.id st.products epid with
  | none => rfl
  | some p =>
    cases ety with
    | ALERT => rfl
    | SALE =>
      dsimp only
      cases h2 : ProductStore.updateStock st.products epid
          (eventDelta (Event.mk eid EventType.SALE epid eq ew et em)) now with
      | none => rfl
      | some pr =>
        obtain ⟨p2, products2⟩ := pr
        rw [checkAlertConditions_events]
    | RESTOCK =>
      dsimp only
      cases h2 : ProductStore.updateStock st.products epid
          (eventDelta (Event.mk eid EventType.RESTOCK epid eq ew et em)) now with
      | none => rfl
      | some pr =>
        obtain ⟨p2, products2⟩ := pr
        rw [checkAlertConditions_events]
    | RETURN =>
      dsimp only
      cases h2 : ProductStore.updateStock st.products epid
          (eventDelta (Event.mk eid EventType.RETURN epid eq ew et em)) now with
      | none => rfl
      | some pr =>
        obtain ⟨p2, products2⟩ := pr
        rw [checkAlertConditions_events]

/-- C2 counterexample: delivering the same SALE event twice applies the
    delta twice, so the Ledger differs from its state before the
    re-delivery — the claimed no-op fails. -/
theorem redeliverySameEventChangesLedger :
    (EventHandler.processEvent
          (EventHandler.processEvent (SysState.mk [mkProduct ("p1") 100 5 1000] [] [])
            (mkEvent ("e1") EventType.SALE ("p1") 3 0) 10 (fun _ => "u"))
          (mkEvent ("e1") EventType.SALE ("p1") 3 0) 20 (fun _ => "v")).products ≠
      (EventHandler.processEvent (SysState.mk [mkProduct ("p1") 100 5 1000] [] [])
          (mkEvent ("e1") EventType.SALE ("p1") 3 0) 10 (fun _ => "u")).products := by
  decide

/-- C2 (amended): re-delivering an already-processed event (same id,
    same payload) leaves the History unchanged — the keyed `Map.set` just
    overwrites the identical entry — but processing is not a no-op: the
    stock delta is applied a second time, so the Ledger (and possibly the
    Alert state) moves again. -/
theorem processEvent_redelivery (st : SysState) (e : Event) (now1 now2 : ℤ)
    (ids1 ids2 : ℕ → String) (p : Product)
    (hp : mapGet Product.id st.products e.productId = some p)
    (hty : e.type ≠ EventType.ALERT) :
    (EventHandler.processEvent (EventHandler.processEvent st e now1 ids1) e now2 ids2).events =
        (EventHandler.processEvent st e now1 ids1).events ∧
      mapGet Product.id
          (EventHandler.processEvent
            (EventHandler.processEvent st e now1 ids1) e now2 ids2).products e.productId =
        some { p with
          currentStock := p.currentStock + eventDelta e + eventDelta e,
          lastUpdated := now2 } := by
  constructor
  · rw [processEvent_events, processEvent_events, mapSet_idem]
  · have h1 := processEvent_stock st e now1 ids1 p hp hty
    exact processEvent_stock (EventHandler.processEvent st e now1 ids1) e now2 ids2 _ h1 hty

/-- Witness for C2 (amended): the double-processed SALE of 3 leaves the
    product at 100 - 3 - 3 = 94. -/
theorem processEvent_redelivery_witness :
    mapGet Product.id (SysState.mk [mkProduct ("p1") 100 5 1000] [] []).products
        (mkEvent ("e1") EventType.SALE ("p1") 3 0).productId =
        some (mkProduct ("p1") 100 5 1000) ∧
      (mkEvent ("e1") EventType.SALE ("p1") 3 0).type ≠ EventType.ALERT ∧
      ((EventHandler.processEvent
            (EventHandler.processEvent (SysState.mk [mkProduct ("p1") 100 5 1000] [] [])
              (mkEvent ("e1") EventType.SALE ("p1") 3 0) 10 (fun _ => "u"))
            (mkEvent ("e1") EventType.SALE ("p1") 3 0) 20 (fun _ => "v")).events =
          (EventHandler.processEvent (SysState.mk [mkProduct ("p1") 100 5 1000] [] [])
              (mkEvent ("e1") EventType.SALE ("p1") 3 0) 10 (fun _ => "u")).events ∧
        mapGet Product.id
            (EventHandler.processEvent
              (EventHandler.processEvent (SysState.mk [mkProduct ("p1") 100 5 1000] [] [])
                (mkEvent ("e1") EventType.SALE ("p1") 3 0) 10 (fun _ => "u"))
              (mkEvent ("e1") EventType.SALE ("p1") 3 0) 20 (fun _ => "v")).products
            (mkEvent ("e1") EventType.SALE ("p1") 3 0).productId =
          some { mkProduct ("p1") 100 5 1000 with
            currentStock := (mkProduct ("p1") 100 5 1000).currentStock +
              eventDelta (mkEvent ("e1") EventType.SALE ("p1") 3 0) +
              eventDelta (mkEvent ("e1") EventType.SALE ("p1") 3 0),
            lastUpdated := 20 }) :=
  ⟨by decide, by decide,
    processEvent_redelivery (SysState.mk [mkProduct ("p1") 100 5 1000] [] [])
      (mkEvent ("e1") EventType.SALE ("p1") 3 0) 10 20 (fun _ => "u") (fun _ => "v")
      (mkProduct ("p1") 100 5 1000) (by decide) (by decide)⟩

/-- C1 counterexample: from stock 5, one valid SALE of 10 drives
    `currentStock` to -5, a reachable negative state — the store does not
    clamp, so the claimed non-negativity fails. -/
theorem saleDrivesStockNegative :
    (mapGet Product.id
          (EventHandler.processEvent (SysState.mk [mkProduct ("p1") 5 10 100] [] [])
            (mkEvent ("e1") EventType.SALE ("p1") 10 0) 0 (fun n => toString n)).products
          ("p1")).map Product.currentStock = some (-5) ∧
      ¬(0 : ℚ) ≤ -5 := by
  decide

/-- C1 (amended): for every product and every sequence of valid
    processed events targeting it, the final `currentStock` equals the
    initial stock plus the sum of the signed deltas.  (No non-negativity:
    the store applies the delta unclamped, so the running value can go
    negative, as the counterexample shows.) -/
theorem processAll_stock_sum (st : SysState) (pid : String) (p : Product)
    (steps : List Delivery) (hp : mapGet Product.id st.products pid = some p)
    (hsteps : ∀ d ∈ steps, d.event.productId = pid ∧ d.event.type ≠ EventType.ALERT) :
    ∃ p', mapGet Product.id (processAll st steps).products pid = some p' ∧
      p'.currentStock = p.currentStock + (steps.map (fun d => eventDelta d.event)).sum := by
  induction steps generalizing st p with
  | nil => exact ⟨p, hp, by simp⟩
  | cons d steps ih =>
    have hd := hsteps d (List.mem_cons_self d steps)
    have hp1 : mapGet Product.id
        (EventHandler.processEvent st d.event d.now d.ids).products pid =
        some { p with
          currentStock := p.currentStock + eventDelta d.event,
          lastUpdated := d.now } := by
      rw [← hd.1]
      exact processEvent_stock st d.event d.now d.ids p (hd.1 ▸ hp) hd.2
    rcases ih (EventHandler.processEvent st d.event d.now d.ids) _ hp1
        (fun d' hd' => hsteps d' (List.mem_cons_of_mem d hd')) with ⟨p', hget, hsum⟩
    refine ⟨p', hget, ?_⟩
    rw [hsum]
    dsimp only
    rw [List.map_cons, List.sum_cons]
    ring

/-- Witness for C1 (amended): SALE 3, RESTOCK 10, RETURN 2 on stock 100
    end at 100 - 3 + 10 + 2 = 109. -/
theorem processAll_stock_sum_witness :
    mapGet Product.id (SysState.mk [mkProduct ("p1") 100 5 1000] [] []).products ("p1") =
        some (mkProduct ("p1") 100 5 1000) ∧
      (∀ d ∈ [Delivery.mk (mkEvent ("e1") EventType.SALE ("p1") 3 0) 10 (fun n => toString n),
          Delivery.mk (mkEvent ("e2") EventType.RESTOCK ("p1") 10 0) 20 (fun n => toString n),
          Delivery.mk (mkEvent ("e3") EventType.RETURN ("p1") 2 0) 30 (fun n => toString n)],
        d.event.productId = "p1" ∧ d.event.type ≠ EventType.ALERT) ∧
      ∃ p', mapGet Product.id
          (processAll (SysState.mk [mkProduct ("p1") 100 5 1000] [] [])
            [Delivery.mk (mkEvent ("e1") EventType.SALE ("p1") 3 0) 10 (fun n => toString n),
              Delivery.mk (mkEvent ("e2") EventType.RESTOCK ("p1") 10 0) 20 (fun n => toString n),
              Delivery.mk (mkEvent ("e3") EventType.RETURN ("p1") 2 0) 30 (fun n => toString n)]).products
          ("p1") = some p' ∧
        p'.currentStock = (mkProduct ("p1") 100 5 1000).currentStock +
          ([Delivery.mk (mkEvent ("e1") EventType.SALE ("p1") 3 0) 10 (fun n => toString n),
            Delivery.mk (mkEvent ("e2") EventType.RESTOCK ("p1") 10 0) 20 (fun n => toString n),
            Delivery.mk (mkEvent ("e3") EventType.RETURN ("p1") 2 0) 30 (fun n => toString n)].map
              (fun d => eventDelta d.event)).sum :=
  ⟨by decide, by decide,
    processAll_stock_sum (SysState.mk [mkProduct ("p1") 100 5 1000] [] []) ("p1")
      (mkProduct ("p1") 100 5 1000)
      [Delivery.mk (mkEvent ("e1") EventType.SALE ("p1") 3 0) 10 (fun n => toString n),
        Delivery.mk (mkEvent ("e2") EventType.RESTOCK ("p1") 10 0) 20 (fun n => toString n),
        Delivery.mk (mkEvent ("e3") EventType.RETURN ("p1") 2 0) 30 (fun n => toString n)]
      (by decide) (by decide)⟩

/-- C9 counterexample: manually resolving an alert that is already
    resolved (resolvedAt = 100) overwrites its resolution timestamp with
    the new wall-clock time 200 — the record is not immutable once
    resolved, contradicting the claim. -/
theorem repeatedResolveOverwritesResolvedAt :
    (mapGet Alert.id
          (resolveAlertRoute
            (SysState.mk [] [] [mkAlert ("a1") ("p1") AlertType.LOW_STOCK true (some 100)])
            ("a1") 200).2.alerts ("a1")).map Alert.resolvedAt = some (some 200) ∧
      (some (200 : ℤ)) ≠ some 100 := by
  decide

/-- C9 (amended): the `resolved` flag is terminal — a manual resolution
    request never clears it or removes the record — but the record is not
    frozen: re-resolving an already-resolved alert overwrites its
    `resolvedAt` with the current time.  (A recurring condition still
    creates a new Alert, since creation dedups only on unresolved
    alerts.) -/
theorem resolveAlertRoute_terminal_flag (st : SysState) (aid : String) (now : ℤ)
    (a : Alert) (ha : a ∈ st.alerts) (hres : a.resolved = true)
    (hnd : (st.alerts.map Alert.id).Nodup) :
    (∃ a' ∈ (resolveAlertRoute st aid now).2.alerts,
        a'.id = a.id ∧ a'.productId = a.productId ∧ a'.type = a.type ∧
          a'.resolved = true) ∧
      (a.id = aid →
        ({ a with resolved := true, resolvedAt := some now } : Alert) ∈
          (resolveAlertRoute st aid now).2.alerts) := by
  constructor
  · rcases AlertStore.resolve_tracking st.alerts aid now hnd a ha with
      ⟨a', ha', hid, hpid, hty2, hmono⟩
    exact ⟨a', ha', hid, hpid, hty2, hmono hres⟩
  · intro hid
    have hget : mapGet Alert.id st.alerts aid = some a := by
      rw [← hid]
      exact mapGet_of_nodup_mem Alert.id st.alerts a hnd ha
    show _ ∈ (AlertStore.resolve st.alerts aid now).2
    unfold AlertStore.resolve
    rw [hget]
    exact mem_mapSet_self Alert.id st.alerts _

/-- Witness for C9 (amended) on a concrete already-resolved alert. -/
theorem resolveAlertRoute_terminal_flag_witness :
    (mkAlert ("a1") ("p1") AlertType.LOW_STOCK true (some 100)) ∈
        (SysState.mk [] [] [mkAlert ("a1") ("p1") AlertType.LOW_STOCK true (some 100)]).alerts ∧
      (mkAlert ("a1") ("p1") AlertType.LOW_STOCK true (some 100)).resolved = true ∧
      ((∃ a' ∈ (resolveAlertRoute
              (SysState.mk [] [] [mkAlert ("a1") ("p1") AlertType.LOW_STOCK true (some 100)])
              ("a1") 200).2.alerts,
          a'.id = (mkAlert ("a1") ("p1") AlertType.LOW_STOCK true (some 100)).id ∧
            a'.productId = (mkAlert ("a1") ("p1") AlertType.LOW_STOCK true (some 100)).productId ∧
            a'.type = (mkAlert ("a1") ("p1") AlertType.LOW_STOCK true (some 100)).type ∧
            a'.resolved = true) ∧
        ((mkAlert ("a1") ("p1") AlertType.LOW_STOCK true (some 100)).id = "a1" →
          ({ mkAlert ("a1") ("p1") AlertType.LOW_STOCK true (some 100) with
            resolved := true, resolvedAt := some 200 } : Alert) ∈
            (resolveAlertRoute
              (SysState.mk [] [] [mkAlert ("a1") ("p1") AlertType.LOW_STOCK true (some 100)])
              ("a1") 200).2.alerts)) :=
  ⟨by decide, by decide,
    resolveAlertRoute_terminal_flag
      (SysState.mk [] [] [mkAlert ("a1") ("p1") AlertType.LOW_STOCK true (some 100)])
      ("a1") 200 (mkAlert ("a1") ("p1") AlertType.LOW_STOCK true (some 100))
      (by decide) (by decide) (by decide)⟩

/-- The clamp-then-round step at the end of `calculateConfidence` stays
    inside [0.1, 0.95] for every input score. -/
theorem clampRound_bounds (x : ℝ) :
    (1/10 : ℝ) ≤ (⌊(max (1/10) (min (19/20) x)) * 100 + 1/2⌋ : ℝ) / 100 ∧
      (⌊(max (1/10) (min (19/20) x)) * 100 + 1/2⌋ : ℝ) / 100 ≤ 19/20 := by
  have hc1 : (1/10 : ℝ) ≤ max (1/10) (min (19/20) x) := le_max_left _ _
  have hc2 : max (1/10 : ℝ) (min (19/20) x) ≤ 19/20 :=
    max_le (by norm_num) (min_le_left _ _)
  have hlo : (10 : ℤ) ≤ ⌊(max (1/10) (min (19/20) x)) * 100 + 1/2⌋ := by
    rw [Int.le_floor]
    push_cast
    linarith
  have hhi : ⌊(max (1/10) (min (19/20) x)) * 100 + 1/2⌋ ≤ 95 := by
    have : ⌊(max (1/10) (min (19/20) x)) * 100 + 1/2⌋ < 96 := by
      rw [Int.floor_lt]
      push_cast
      linarith
    omega
  constructor
  · have : (10 : ℝ) ≤ (⌊(max (1/10) (min (19/20) x)) * 100 + 1/2⌋ : ℝ) := by
      exact_mod_cast hlo
    linarith
  · have : ((⌊(max (1/10) (min (19/20) x)) * 100 + 1/2⌋ : ℤ) : ℝ) ≤ 95 := by
      exact_mod_cast hhi
    linarith

/-- `calculateConfidence` always lands in [0.1, 0.95], and is exactly 0.5
    when fewer than two day-buckets exist. -/
theorem calculateConfidence_bounds (values : List ℚ) :
    (1/10 : ℝ) ≤ calculateConfidence values ∧
      calculateConfidence values ≤ 19/20 ∧
      (values.length < 2 → calculateConfidence values = 1/2) := by
  unfold calculateConfidence
  by_cases h : values.length < 2
  · rw [if_pos h]
    refine ⟨by norm_num, by norm_num, fun _ => rfl⟩
  · rw [if_neg h]
    refine ⟨(clampRound_bounds _).1, (clampRound_bounds _).2, fun hc => absurd hc h⟩

/-- C6: for every product, event history and window parameters, the
    Forecaster's returned confidence lies in the closed interval
    [0.1, 0.95]; and when fewer than two day-buckets of changes exist in
    the trailing window, the confidence is exactly 0.5. -/
theorem forecastConfidence_bounds (product : Product) (events : List Event)
    (daysToForecast : ℚ) (historicalDays : ℤ) (now : ℤ) :
    (1/10 : ℝ) ≤
        (calculateSMAForecast product events daysToForecast historicalDays now).confidence ∧
      (calculateSMAForecast product events daysToForecast historicalDays now).confidence ≤
        19/20 ∧
      ((calculateDailyStockChanges
            (events.filter (fun e => decide (e.productId = product.id)))
            historicalDays now).length < 2 →
        (calculateSMAForecast product events daysToForecast historicalDays now).confidence =
          1/2) :=
  calculateConfidence_bounds
    (calculateDailyStockChanges
      (events.filter (fun e => decide (e.productId = product.id))) historicalDays now)

/-- C7: starting from a cold or expired cache, the first call computes
    the batch from its state and caches it; any second call within the
    TTL window of that first call returns the identical list no matter
    how the underlying stores changed; and a call at or past the TTL
    recomputes from the then-current state. -/
theorem recommendationCache_ttl (st0 : SysState) (c0 : RecCache) (t0 : ℤ)
    (hcold : c0 = none ∨ ∀ recs ts, c0 = some (recs, ts) → CACHE_TTL_MS ≤ t0 - ts) :
    (generateRecommendations st0 c0 t0).1 = computeRecommendations st0 t0 ∧
      (∀ st1 t1, t1 - t0 < CACHE_TTL_MS →
        (generateRecommendations st1 (generateRecommendations st0 c0 t0).2 t1).1 =
          (generateRecommendations st0 c0 t0).1) ∧
      ∀ st2 t2, CACHE_TTL_MS ≤ t2 - t0 →
        (generateRecommendations st2 (generateRecommendations st0 c0 t0).2 t2).1 =
          computeRecommendations st2 t2 := by
  have hfirst : generateRecommendations st0 c0 t0 =
      (computeRecommendations st0 t0, some (computeRecommendations st0 t0, t0)) := by
    rcases hcold with rfl | hexp
    · rfl
    · rcases c0 with _ | ⟨recs, ts⟩
      · rfl
      · have h := hexp recs ts rfl
        unfold generateRecommendations
        dsimp only
        rw [if_neg (not_lt.mpr h)]
  refine ⟨by rw [hfirst], ?_, ?_⟩
  · intro st1 t1 ht
    rw [hfirst]
    unfold generateRecommendations
    dsimp only
    rw [if_pos (by omega)]
  · intro st2 t2 ht
    rw [hfirst]
    unfold generateRecommendations
    dsimp only
    rw [if_neg (by omega)]

/-- Witness for C7 from the empty cold state at concrete times 0, 100
    and 300000 (the TTL is 300000 ms). -/
theorem recommendationCache_ttl_witness :
    ((none : RecCache) = none ∨ ∀ recs ts, (none : RecCache) = some (recs, ts) →
        CACHE_TTL_MS ≤ (0 : ℤ) - ts) ∧
      ((generateRecommendations (SysState.mk [] [] []) none 0).1 =
          computeRecommendations (SysState.mk [] [] []) 0 ∧
        (∀ st1 t1, t1 - 0 < CACHE_TTL_MS →
          (generateRecommendations st1
              (generateRecommendations (SysState.mk [] [] []) none 0).2 t1).1 =
            (generateRecommendations (SysState.mk [] [] []) none 0).1) ∧
        ∀ st2 t2, CACHE_TTL_MS ≤ t2 - 0 →
          (generateRecommendations st2
              (generateRecommendations (SysState.mk [] [] []) none 0).2 t2).1 =
            computeRecommendations st2 t2) :=
  ⟨Or.inl rfl, recommendationCache_ttl (SysState.mk [] [] []) none 0 (Or.inl rfl)⟩

theorem find?_unique (p : α → Bool) (l : List α) (x : α) (hx : x ∈ l)
    (hpx : p x = true) (huniq : ∀ y ∈ l, p y = true → y = x) : l.find? p = some x := by
  induction l with
  | nil => simp at hx
  | cons a l ih =>
    by_cases hpa : p a = true
    · have : a = x := huniq a (List.mem_cons_self a l) hpa
      subst this
      simp [List.find?_cons, hpa]
    · rw [List.find?_cons_of_neg _ hpa]
      rcases List.mem_cons.mp hx with rfl | hx'
      · exact absurd hpx hpa
      · exact ih hx' (fun y hy hpy => huniq y (List.mem_cons_of_mem a hy) hpy)

/-- `analyzeProduct` stamps the analyzed product's id into the returned
    recommendation. -/
theorem analyzeProduct_productId (product : Product) (allEvents : List Event)
    (allAlerts : List Alert) (now : ℤ) (r : AIRecommendation)
    (h : analyzeProduct product allEvents allAlerts now = some r) :
    r.productId = product.id := by
  unfold analyzeProduct at h
  dsimp only at h
  split_ifs at h <;>
    first
      | exact Option.noConfusion h
      | exact (Option.some.inj h) ▸ rfl

/-- Membership in the batch result is exactly a successful analysis of
    one of the stored products. -/
theorem mem_computeRecommendations (st : SysState) (now : ℤ) (r : AIRecommendation) :
    r ∈ computeRecommendations st now ↔
      ∃ p ∈ st.products, analyzeProduct p st.events st.alerts now = some r := by
  unfold computeRecommendations
  rw [List.mem_mergeSort, List.mem_filterMap]

/-- C8 counterexample: with a warm (non-expired) cache slot holding the
    empty batch, the cached-batch-then-filter result is `none`, while the
    single-product lookup recomputes from the live state and returns a
    recommendation — the two disagree, so the lookup is not equivalent to
    filtering the possibly-cached batch. -/
theorem productLookupIgnoresCache :
    getProductRecommendation ("p1") (SysState.mk [mkProduct ("p1") 0 10 100] [] []) 0 ≠
      ((generateRecommendations (SysState.mk [mkProduct ("p1") 0 10 100] [] [])
          (some ([], 0)) 0).1).find? (fun r => decide (r.productId = "p1")) := by
  decide

/-- C8 (amended): the single-product lookup never consults the cache; it
    recomputes the analysis from the current state.  It agrees with
    batch-then-filter exactly when the batch itself is computed fresh
    (cold cache): for product stores without duplicate ids, the lookup
    equals the cold-cache batch result filtered to that product. -/
theorem getProductRecommendation_eq_coldBatch (st : SysState) (pid : String) (now : ℤ)
    (hnd : (st.products.map Product.id).Nodup) :
    getProductRecommendation pid st now =
      ((generateRecommendations st none now).1).find?
        (fun r => decide (r.productId = pid)) := by
  have hb : (generateRecommendations st none now).1 = computeRecommendations st now := rfl
  rw [hb]
  unfold getProductRecommendation
  cases hf : st.products.find? (fun p => decide (p.id = pid)) with
  | none =>
    have hno : ∀ p ∈ st.products, p.id ≠ pid := by
      intro p hp hc
      have := List.find?_eq_none.mp hf p hp
      simp [hc] at this
    symm
    rw [List.find?_eq_none]
    intro r hr
    rcases (mem_computeRecommendations st now r).mp hr with ⟨p, hp, ha⟩
    have hid := analyzeProduct_productId p st.events st.alerts now r ha
    simp [hid]
    exact hno p hp
  | some product =>
    have hpid : product.id = pid := by simpa using List.find?_some hf
    have hmem : product ∈ st.products := List.mem_of_find?_eq_some hf
    dsimp only
    cases ha : analyzeProduct product st.events st.alerts now with
    | none =>
      symm
      rw [List.find?_eq_none]
      intro r hr hpr
      rcases (mem_computeRecommendations st now r).mp hr with ⟨p, hp, hpa⟩
      have hid := analyzeProduct_productId p st.events st.alerts now r hpa
      have hppid : p.id = pid := by
        rw [← hid]
        simpa using hpr
      have hpp : p = product :=
        List.inj_on_of_nodup_map hnd hp hmem (hppid.trans hpid.symm)
      rw [hpp, ha] at hpa
      exact Option.noConfusion hpa
    | some r =>
      symm
      apply find?_unique _ _ r
      · exact (mem_computeRecommendations st now r).mpr ⟨product, hmem, ha⟩
      · simp [analyzeProduct_productId product st.events st.alerts now r ha, hpid]
      · intro r' hr' hpr'
        rcases (mem_computeRecommendations st now r').mp hr' with ⟨p, hp, hpa⟩
        have hid := analyzeProduct_productId p st.events st.alerts now r' hpa
        have hppid : p.id = pid := by
          rw [← hid]
          simpa using hpr'
        have hpp : p = product :=
          List.inj_on_of_nodup_map hnd hp hmem (hppid.trans hpid.symm)
        rw [hpp, ha] at hpa
        exact (Option.some.inj hpa).symm

/-- Witness for C8 (amended) on a one-product store. -/
theorem getProductRecommendation_eq_coldBatch_witness :
    ((SysState.mk [mkProduct ("p1") 0 10 100] [] []).products.map Product.id).Nodup ∧
      getProductRecommendation ("p1") (SysState.mk [mkProduct ("p1") 0 10 100] [] []) 0 =
        ((generateRecommendations (SysState.mk [mkProduct ("p1") 0 10 100] [] [])
            none 0).1).find? (fun r => decide (r.productId = "p1")) :=
  ⟨by decide,
    getProductRecommendation_eq_coldBatch
      (SysState.mk [mkProduct ("p1") 0 10 100] [] []) ("p1") 0 (by decide)⟩

theorem dedupRel_symm (a b : Alert) (h : dedupRel a b) : dedupRel b a :=
  fun hb ha hpid => Ne.symm (h ha hb hpid.symm)

theorem mapSet_cons_ne (getId : α → String) (a : α) (s : List α) (x : α)
    (h : getId a ≠ getId x) : mapSet getId (a :: s) x = a :: mapSet getId s x := by
  rw [mapSet_eq, mapSet_eq]
  by_cases hs : s.any (fun y => getId y == getId x) = true
  · have hany : (a :: s).any (fun y => getId y == getId x) = true := by
      simp [List.any_cons, hs]
    rw [if_pos hany, if_pos hs, replaceKey_cons_ne getId a s x h]
  · have hany : ¬(a :: s).any (fun y => getId y == getId x) = true := by
      simp only [List.any_cons, Bool.or_eq_true]
      rintro (hc | hc)
      · exact h (by simpa using hc)
      · exact hs hc
    rw [if_neg hany, if_neg hs]
    rfl

theorem mapSet_cons_eq (getId : α → String) (a : α) (s : List α) (x : α)
    (h : getId a = getId x) (hrest : ∀ y ∈ s, getId y ≠ getId x) :
    mapSet getId (a :: s) x = x :: s := by
  have hany : (a :: s).any (fun y => getId y == getId x) = true := by
    simp [List.any_cons, h]
  rw [mapSet_eq, if_pos hany, replaceKey_cons_eq getId a s x h,
    replaceKey_eq_self getId s x hrest]

/-- `Map.set` preserves a symmetric pairwise relation when the inserted
    item is compatible with every stored entry (under unique keys). -/
theorem pairwise_mapSet {R : α → α → Prop} (getId : α → String) (s : List α) (x : α)
    (hsym : ∀ a b, R a b → R b a) (hx : ∀ b ∈ s, R x b)
    (hnd : (s.map getId).Nodup) (h : s.Pairwise R) :
    (mapSet getId s x).Pairwise R := by
  induction s with
  | nil => simp [mapSet]
  | cons a s ih =>
    rw [List.map_cons] at hnd
    have hnd' := List.nodup_cons.mp hnd
    have hps := List.pairwise_cons.mp h
    by_cases hm : getId a = getId x
    · have hrest : ∀ y ∈ s, getId y ≠ getId x := by
        intro y hy hc
        exact hnd'.1 (by rw [hm, ← hc]; exact List.mem_map.mpr ⟨y, hy, rfl⟩)
      rw [mapSet_cons_eq getId a s x hm hrest]
      exact List.pairwise_cons.mpr
        ⟨fun b hb => hx b (List.mem_cons_of_mem a hb), hps.2⟩
    · rw [mapSet_cons_ne getId a s x hm]
      refine List.pairwise_cons.mpr ⟨?_, ih (fun b hb => hx b (List.mem_cons_of_mem a hb))
        hnd'.2 hps.2⟩
      intro b hb
      rcases mem_of_mem_mapSet getId s x b hb with hbx | ⟨hbs, _⟩
      · rw [hbx]
        exact hsym x a (hx a (List.mem_cons_self a s))
      · exact hps.1 b hbs

/-- `createAlert` keeps the registry keys unique. -/
theorem createAlert_nodup (st : SysState) (p : Product) (sev : AlertSeverity)
    (ty : AlertType) (msg newId : String) (now : ℤ)
    (hnd : (st.alerts.map Alert.id).Nodup) :
    ((createAlert st p sev ty msg newId now).alerts.map Alert.id).Nodup := by
  unfold createAlert
  dsimp only
  split
  · exact hnd
  · exact nodup_mapSet Alert.id st.alerts _ hnd

/-- `createAlert` preserves the whole registry invariant: the guard
    refuses to insert when an unresolved alert of the same
    (productId, type) exists, so the new unresolved entry is compatible
    with everything stored. -/
theorem createAlert_inv (st : SysState) (p : Product) (sev : AlertSeverity)
    (ty : AlertType) (msg newId : String) (now : ℤ) (h : alertInvariant st) :
    alertInvariant (createAlert st p sev ty msg newId now) := by
  unfold createAlert alertInvariant dedupOK
  dsimp only
  split
  · exact h
  · rename_i hguard
    refine ⟨nodup_mapSet Alert.id st.alerts _ h.1, ?_⟩
    refine pairwise_mapSet Alert.id st.alerts _ dedupRel_symm ?_ h.1 h.2
    intro b hb
    intro _ hbres hpid hbty
    apply hguard
    refine List.length_pos_of_mem (List.mem_filter.mpr ⟨hb, ?_⟩)
    simp only [Bool.and_eq_true, decide_eq_true_eq, Bool.not_eq_true']
    exact ⟨⟨hpid.symm, hbty.symm⟩, hbres⟩

/-- `AlertStore.resolve` preserves the registry invariant: the updated
    copy is resolved, hence compatible with every entry. -/
theorem resolve_inv (s : List Alert) (aid : String) (now : ℤ)
    (hnd : (s.map Alert.id).Nodup) (h : s.Pairwise dedupRel) :
    (((AlertStore.resolve s aid now).2).map Alert.id).Nodup ∧
      ((AlertStore.resolve s aid now).2).Pairwise dedupRel := by
  unfold AlertStore.resolve
  cases hg : mapGet Alert.id s aid with
  | none => exact ⟨hnd, h⟩
  | some a =>
    dsimp only
    refine ⟨nodup_mapSet Alert.id s _ hnd, ?_⟩
    refine pairwise_mapSet Alert.id s _ dedupRel_symm ?_ hnd h
    intro b _
    intro hres
    exact Bool.noConfusion hres

/-- The auto-resolution fold preserves the registry invariant. -/
theorem foldResolve_inv (p : Product) (now : ℤ) (L : List Alert) (s : List Alert)
    (hnd : (s.map Alert.id).Nodup) (h : s.Pairwise dedupRel) :
    ((L.foldl (fun acc alert =>
          if shouldResolveAlert alert.type p then (AlertStore.resolve acc alert.id now).2
          else acc) s).map Alert.id).Nodup ∧
      (L.foldl (fun acc alert =>
          if shouldResolveAlert alert.type p then (AlertStore.resolve acc alert.id now).2
          else acc) s).Pairwise dedupRel := by
  induction L generalizing s with
  | nil => exact ⟨hnd, h⟩
  | cons b L ih =>
    rw [List.foldl_cons]
    by_cases hres : shouldResolveAlert b.type p = true
    · rw [if_pos hres]
      exact ih _ (resolve_inv s b.id now hnd h).1 (resolve_inv s b.id now hnd h).2
    · rw [if_neg hres]
      exact ih s hnd h

theorem autoResolveAlerts_inv (st : SysState) (p : Product) (now : ℤ)
    (h : alertInvariant st) : alertInvariant (autoResolveAlerts st p now) := by
  unfold autoResolveAlerts alertInvariant
  dsimp only
  exact foldResolve_inv p now _ st.alerts h.1 h.2

theorem triggerCriticalOrLow_inv (st : SysState) (p : Product) (i : String) (now : ℤ)
    (h : alertInvariant st) : alertInvariant (triggerCriticalOrLow st p i now) := by
  unfold triggerCriticalOrLow
  split_ifs <;> first | exact h | exact createAlert_inv _ _ _ _ _ _ _ h

theorem triggerOverstock_inv (st : SysState) (p : Product) (i : String) (now : ℤ)
    (h : alertInvariant st) : alertInvariant (triggerOverstock st p i now) := by
  unfold triggerOverstock
  split_ifs <;> first | exact h | exact createAlert_inv _ _ _ _ _ _ _ h

theorem triggerRapidDepletion_inv (st : SysState) (p : Product) (e : Event) (i : String)
    (now : ℤ) (h : alertInvariant st) :
    alertInvariant (triggerRapidDepletion st p e i now) := by
  unfold triggerRapidDepletion
  split_ifs <;> first | exact h | exact createAlert_inv _ _ _ _ _ _ _ h

theorem triggerReorderNeeded_inv (st : SysState) (p : Product) (i : String) (now : ℤ)
    (h : alertInvariant st) : alertInvariant (triggerReorderNeeded st p i now) := by
  unfold triggerReorderNeeded
  split_ifs <;> first | exact h | exact createAlert_inv _ _ _ _ _ _ _ h

theorem checkAlertConditions_inv (st : SysState) (p : Product) (e : Event) (now : ℤ)
    (ids : ℕ → String) (h : alertInvariant st) :
    alertInvariant (checkAlertConditions st p e now ids) := by
  unfold checkAlertConditions
  exact autoResolveAlerts_inv _ _ _
    (triggerReorderNeeded_inv _ _ _ _
      (triggerRapidDepletion_inv _ _ _ _ _
        (triggerOverstock_inv _ _ _ _
          (triggerCriticalOrLow_inv _ _ _ _ h))))

theorem processEvent_inv (st : SysState) (e : Event) (now : ℤ) (ids : ℕ → String)
    (h : alertInvariant st) : alertInvariant (EventHandler.processEvent st e now ids) := by
  obtain ⟨eid, ety, epid, eq, ew, et, em⟩ := e
  unfold EventHandler.processEvent
  dsimp only
  cases hm : mapGet Product.id st.products epid with
  | none => exact h
  | some p =>
    cases ety with
    | ALERT => exact h
    | SALE =>
      dsimp only
      cases h2 : ProductStore.updateStock st.products epid
          (eventDelta (Event.mk eid EventType.SALE epid eq ew et em)) now with
      | none => exact h
      | some pr => exact checkAlertConditions_inv _ _ _ _ _ h
    | RESTOCK =>
      dsimp only
      cases h2 : ProductStore.updateStock st.products epid
          (eventDelta (Event.mk eid EventType.RESTOCK epid eq ew et em)) now with
      | none => exact h
      | some pr => exact checkAlertConditions_inv _ _ _ _ _ h
    | RETURN =>
      dsimp only
      cases h2 : ProductStore.updateStock st.products epid
          (eventDelta (Event.mk eid EventType.RETURN epid eq ew et em)) now with
      | none => exact h
      | some pr => exact checkAlertConditions_inv _ _ _ _ _ h

theorem processAll_inv (st : SysState) (steps : List Delivery)
    (h : alertInvariant st) : alertInvariant (processAll st steps) := by
  induction steps generalizing st with
  | nil => exact h
  | cons d steps ih => exact ih _ (processEvent_inv st d.event d.now d.ids h)

/-- C3: in every state reachable by processing events from a state whose
    registry satisfies the invariant (in particular from the empty
    initial registry), there is at most one unresolved Alert per
    (productId, type) pair. -/
theorem alertDedup_reachable (st : SysState) (steps : List Delivery)
    (h : alertInvariant st) : dedupOK (processAll st steps).alerts :=
  (processAll_inv st steps h).2

/-- Witness for C3: from an empty registry, a SALE that fires alert
    creation still leaves the registry deduplicated. -/
theorem alertDedup_reachable_witness :
    alertInvariant (SysState.mk [mkProduct ("p1") 5 10 100] [] []) ∧
      dedupOK (processAll (SysState.mk [mkProduct ("p1") 5 10 100] [] [])
        [Delivery.mk (mkEvent ("e1") EventType.SALE ("p1") 2 0) 10 (fun n => toString n),
          Delivery.mk (mkEvent ("e2") EventType.SALE ("p1") 1 0) 20 (fun n => toString n)]).alerts :=
  ⟨by decide,
    alertDedup_reachable (SysState.mk [mkProduct ("p1") 5 10 100] [] [])
      [Delivery.mk (mkEvent ("e1") EventType.SALE ("p1") 2 0) 10 (fun n => toString n),
        Delivery.mk (mkEvent ("e2") EventType.SALE ("p1") 1 0) 20 (fun n => toString n)]
      (by decide)⟩

theorem triggerCriticalOrLow_nodup (st : SysState) (p : Product) (i : String) (now : ℤ)
    (hnd : (st.alerts.map Alert.id).Nodup) :
    ((triggerCriticalOrLow st p i now).alerts.map Alert.id).Nodup := by
  unfold triggerCriticalOrLow
  split_ifs <;> first | exact hnd | exact createAlert_nodup _ _ _ _ _ _ _ hnd

theorem triggerOverstock_nodup (st : SysState) (p : Product) (i : String) (now : ℤ)
    (hnd : (st.alerts.map Alert.id).Nodup) :
    ((triggerOverstock st p i now).alerts.map Alert.id).Nodup := by
  unfold triggerOverstock
  split_ifs <;> first | exact hnd | exact createAlert_nodup _ _ _ _ _ _ _ hnd

theorem triggerRapidDepletion_nodup (st : SysState) (p : Product) (e : Event)
    (i : String) (now : ℤ) (hnd : (st.alerts.map Alert.id).Nodup) :
    ((triggerRapidDepletion st p e i now).alerts.map Alert.id).Nodup := by
  unfold triggerRapidDepletion
  split_ifs <;> first | exact hnd | exact createAlert_nodup _ _ _ _ _ _ _ hnd

theorem triggerReorderNeeded_nodup (st : SysState) (p : Product) (i : String) (now : ℤ)
    (hnd : (st.alerts.map Alert.id).Nodup) :
    ((triggerReorderNeeded st p i now).alerts.map Alert.id).Nodup := by
  unfold triggerReorderNeeded
  split_ifs <;> first | exact hnd | exact createAlert_nodup _ _ _ _ _ _ _ hnd

/-- The auto-resolution fold: provided every unresolved LOW_STOCK or
    REORDER_NEEDED entry of the product is covered by the snapshot list
    being folded, and the product's stock satisfies their resolution
    condition, all such entries end up resolved. -/
theorem foldResolve_resolvesLR (p : Product) (now : ℤ) (L : List Alert) :
    ∀ (s : List Alert), (s.map Alert.id).Nodup →
      (∀ b ∈ L, ∃ a ∈ s, a.id = b.id ∧ a.type = b.type) →
      (∀ a ∈ s, a.productId = p.id →
        (a.type = AlertType.LOW_STOCK ∨ a.type = AlertType.REORDER_NEEDED) →
        a.resolved = false → ∃ b ∈ L, b.id = a.id) →
      (∀ t, (t = AlertType.LOW_STOCK ∨ t = AlertType.REORDER_NEEDED) →
        shouldResolveAlert t p = true) →
      ∀ a ∈ L.foldl (fun acc alert =>
          if shouldResolveAlert alert.type p then (AlertStore.resolve acc alert.id now).2
          else acc) s,
        a.productId = p.id →
        (a.type = AlertType.LOW_STOCK ∨ a.type = AlertType.REORDER_NEEDED) →
        a.resolved = true := by
  induction L with
  | nil =>
    intro s _ _ hcov _ a ha hpid hty
    cases hr : a.resolved with
    | true => rfl
    | false =>
      rcases hcov a ha hpid hty hr with ⟨b, hb, _⟩
      simp at hb
  | cons b L ih =>
    intro s hnd hL hcov hres a ha hpid hty
    rw [List.foldl_cons] at ha
    by_cases hsb : shouldResolveAlert b.type p = true
    · rw [if_pos hsb] at ha
      refine ih ((AlertStore.resolve s b.id now).2) ?_ ?_ ?_ hres a ha hpid hty
      · rw [AlertStore.resolve_map_id]
        exact hnd
      · intro b' hb'
        rcases hL b' (List.mem_cons_of_mem b hb') with ⟨a0, ha0, hid, hty0⟩
        rcases AlertStore.resolve_tracking s b.id now hnd a0 ha0 with
          ⟨a1, ha1, h1, _, h3, _⟩
        exact ⟨a1, ha1, h1.trans hid, h3.trans hty0⟩
      · intro a' ha' hpid' hty' hr'
        have hmem_s : a' ∈ s := by
          rcases AlertStore.resolve_mem s b.id now a' ha' with hh | ⟨a0, _, rfl⟩
          · exact hh
          · simp at hr'
        rcases hcov a' hmem_s hpid' hty' hr' with ⟨b'', hb'', hbid⟩
        rcases List.mem_cons.mp hb'' with rfl | hb''L
        · exfalso
          have hex : ∃ c, mapGet Alert.id s b''.id = some c := by
            rcases hL b'' (List.mem_cons_self b'' L) with ⟨a0, ha0, hid0, _⟩
            rw [← hid0]
            exact mapGet_isSome_of_mem Alert.id s a0 ha0
          rcases hex with ⟨c, hc⟩
          have := AlertStore.resolve_makes_resolved s b''.id now c hc a' ha' hbid.symm
          rw [this] at hr'
          exact Bool.noConfusion hr'
        · exact ⟨b'', hb''L, hbid⟩
    · rw [if_neg hsb] at ha
      refine ih s hnd (fun b' hb' => hL b' (List.mem_cons_of_mem b hb')) ?_ hres a ha hpid hty
      intro a' ha' hpid' hty' hr'
      rcases hcov a' ha' hpid' hty' hr' with ⟨b'', hb'', hbid⟩
      rcases List.mem_cons.mp hb'' with rfl | hb''L
      · exfalso
        rcases hL b'' (List.mem_cons_self b'' L) with ⟨a0, ha0, hid0, hty0⟩
        have ha0a : a0 = a' :=
          List.inj_on_of_nodup_map hnd ha0 ha' (hid0.trans hbid)
        apply hsb
        rw [← hty0, ha0a]
        exact hres a'.type hty'
      · exact ⟨b'', hb''L, hbid⟩

/-- After `autoResolveAlerts` on a product whose stock has reached its
    reorder point, every LOW_STOCK / REORDER_NEEDED alert of that product
    in the registry is resolved. -/
theorem autoResolveAlerts_resolvesLR (st : SysState) (p : Product) (now : ℤ)
    (hnd : (st.alerts.map Alert.id).Nodup)
    (hstock : p.reorderPoint ≤ p.currentStock) :
    ∀ a ∈ (autoResolveAlerts st p now).alerts,
      a.productId = p.id →
      (a.type = AlertType.LOW_STOCK ∨ a.type = AlertType.REORDER_NEEDED) →
      a.resolved = true := by
  unfold autoResolveAlerts
  dsimp only
  intro a ha hpid hty
  refine foldResolve_resolvesLR p now _ st.alerts hnd ?_ ?_ ?_ a ha hpid hty
  · intro b hb
    exact ⟨b, (List.mem_filter.mp hb).1, rfl, rfl⟩
  · intro a' ha' hpid' _ hr'
    refine ⟨a', List.mem_filter.mpr ⟨ha', ?_⟩, rfl⟩
    simp [hpid', hr']
  · intro t ht
    rcases ht with rfl | rfl <;> simp [shouldResolveAlert, hstock]

theorem checkAlertConditions_resolvesLR (st : SysState) (p : Product) (e : Event)
    (now : ℤ) (ids : ℕ → String) (hnd : (st.alerts.map Alert.id).Nodup)
    (hstock : p.reorderPoint ≤ p.currentStock) :
    ∀ a ∈ (checkAlertConditions st p e now ids).alerts,
      a.productId = p.id →
      (a.type = AlertType.LOW_STOCK ∨ a.type = AlertType.REORDER_NEEDED) →
      a.resolved = true := by
  unfold checkAlertConditions
  exact autoResolveAlerts_resolvesLR _ p now
    (triggerReorderNeeded_nodup _ _ _ _
      (triggerRapidDepletion_nodup _ _ _ _ _
        (triggerOverstock_nodup _ _ _ _
          (triggerCriticalOrLow_nodup _ _ _ _ hnd))))
    hstock

/-- C5: when a product whose stock was below its reorder point is moved
    to at or above the reorder point by one processed event, then after
    that event's processing completes every LOW_STOCK and REORDER_NEEDED
    alert for that product in the registry — in particular every
    previously unresolved one — has resolved = true. -/
theorem lowStockAlertsAutoResolved (st : SysState) (e : Event) (now : ℤ)
    (ids : ℕ → String) (p : Product)
    (hp : mapGet Product.id st.products e.productId = some p)
    (hty : e.type ≠ EventType.ALERT)
    (hnd : (st.alerts.map Alert.id).Nodup)
    (hbelow : p.currentStock < p.reorderPoint)
    (habove : p.reorderPoint ≤ p.currentStock + eventDelta e) :
    ∀ a ∈ (EventHandler.processEvent st e now ids).alerts,
      a.productId = e.productId →
      (a.type = AlertType.LOW_STOCK ∨ a.type = AlertType.REORDER_NEEDED) →
      a.resolved = true := by
  have hpid : p.id = e.productId := (mapGet_eq_some Product.id st.products e.productId p hp).2
  obtain ⟨eid, ety, epid, eq, ew, et, em⟩ := e
  dsimp only at hp hpid habove hty ⊢
  unfold EventHandler.processEvent
  dsimp only
  rw [hp]
  cases ety with
  | ALERT => exact absurd rfl hty
  | SALE =>
    unfold ProductStore.updateStock
    rw [hp]
    dsimp only
    intro a ha hapid hty2
    refine checkAlertConditions_resolvesLR _ _ _ now ids ?_ ?_ a ha ?_ hty2
    · exact hnd
    · exact habove
    · exact hapid.trans hpid.symm
  | RESTOCK =>
    unfold ProductStore.updateStock
    rw [hp]
    dsimp only
    intro a ha hapid hty2
    refine checkAlertConditions_resolvesLR _ _ _ now ids ?_ ?_ a ha ?_ hty2
    · exact hnd
    · exact habove
    · exact hapid.trans hpid.symm
  | RETURN =>
    unfold ProductStore.updateStock
    rw [hp]
    dsimp only
    intro a ha hapid hty2
    refine checkAlertConditions_resolvesLR _ _ _ now ids ?_ ?_ a ha ?_ hty2
    · exact hnd
    · exact habove
    · exact hapid.trans hpid.symm

/-- Witness for C5: a product at stock 5 with reorder point 10 carrying
    an unresolved LOW_STOCK alert receives a RESTOCK of 10; afterwards
    every LOW_STOCK / REORDER_NEEDED alert of the product is resolved. -/
theorem lowStockAlertsAutoResolved_witness :
    mapGet Product.id (SysState.mk [mkProduct ("p1") 5 10 100] []
          [mkAlert ("a1") ("p1") AlertType.LOW_STOCK false none]).products
        (mkEvent ("e1") EventType.RESTOCK ("p1") 10 0).productId =
        some (mkProduct ("p1") 5 10 100) ∧
      (mkProduct ("p1") 5 10 100).currentStock < (mkProduct ("p1") 5 10 100).reorderPoint ∧
      (mkProduct ("p1") 5 10 100).reorderPoint ≤
        (mkProduct ("p1") 5 10 100).currentStock +
          eventDelta (mkEvent ("e1") EventType.RESTOCK ("p1") 10 0) ∧
      ∀ a ∈ (EventHandler.processEvent
          (SysState.mk [mkProduct ("p1") 5 10 100] []
            [mkAlert ("a1") ("p1") AlertType.LOW_STOCK false none])
          (mkEvent ("e1") EventType.RESTOCK ("p1") 10 0) 50 (fun n => toString n)).alerts,
        a.productId = (mkEvent ("e1") EventType.RESTOCK ("p1") 10 0).productId →
        (a.type = AlertType.LOW_STOCK ∨ a.type = AlertType.REORDER_NEEDED) →
        a.resolved = true :=
  ⟨by decide, by decide, by decide,
    lowStockAlertsAutoResolved
      (SysState.mk [mkProduct ("p1") 5 10 100] []
        [mkAlert ("a1") ("p1") AlertType.LOW_STOCK false none])
      (mkEvent ("e1") EventType.RESTOCK ("p1") 10 0) 50 (fun n => toString n)
      (mkProduct ("p1") 5 10 100) (by decide) (by decide) (by decide) (by decide)
      (by decide)⟩
